import Mathlib

/-!
# menuet: state synchronisation and lifecycle coordination

A shallow embedding of `menuet.go`.  The Go program is a set of methods on a
singleton `Application` plus a few package-level variables; every method is
embedded as a function on an explicit `World` holding

* the fields of `Application` the methods read or write,
* the package-level variables (`permissionCallbacks`, `shutdownOnce`),
* the state of the host the code talks to (the login-item registration),
* append-only traces of the calls that leave the Go side (`C.setState`,
  started goroutines, log lines, invoked callbacks).

Go function values are nilable; they are embedded as `Option Func` where `Func`
names a closure.  Calling a nil function value panics, so functions that call one
return `Except Panic World`.

`sendState` sleeps in the middle of its body.  It is embedded as two atomic steps:
`sendStateRequest` (lines 149-156, the first critical section) and `sendStateWake`
(lines 158-173, everything after `time.Sleep`).
-/

namespace Menuet

/-! ## Data model -/

/-- MenuState represents the title and drop down (`menuet.go`, lines 143-146). -/
structure MenuState where
  Title : String
  Image : String
deriving DecidableEq

/-- Name of a Go closure (a non-nil function value). -/
abbrev Func := Nat

/-- Address handed to the native layer (`unsafe.Pointer`). -/
abbrev Ptr := Nat

/-- PermissionCallback is `func(bool)`; `none` is the nil function value. -/
abbrev PermissionCallback := Option Func

/-- Modelled from the spec: the type `internalItem` is declared outside `menuet.go`;
section 3 of the specification gives a menu item a unique id, display text and
an optional click handler.  `clicked` only reads the field `Clicked`. -/
structure internalItem where
  Unique : String
  Text : String
  Clicked : Option Func
deriving DecidableEq

/-- The zero value of `internalItem`, which a Go map lookup yields for a missing key. -/
def internalItem.zero : internalItem := ⟨"", "", none⟩

/-- Application represents the OSX application (`menuet.go`, lines 39-68); the
fields kept are those read or written by the embedded methods.  `wg` is the
counter of the `sync.WaitGroup`; `ctx` is `none` for a nil context and `some d`
for a context whose `Done` channel is closed exactly when `d`; `cancel` tells
whether the `CancelFunc` is non-nil. -/
structure Application where
  NotificationResponder : Option Func
  currentState : Option MenuState
  nextState : Option MenuState
  hideStartupItem : Bool
  pendingStateChange : Bool
  visibleMenuItems : List (String × internalItem)
  wg : Nat
  ctx : Option Bool
  cancel : Bool
deriving DecidableEq

/-- Run-time panics the embedded code can raise. -/
inductive Panic where
  /-- call of a nil function value -/
  | nilFuncCall
  /-- `sync: negative WaitGroup counter` -/
  | negativeWaitGroup
deriving DecidableEq

/-- The whole state the embedded functions act on. -/
structure World where
  /-- the singleton `appInstance` -/
  app : Application
  /-- package variable `permissionCallbacks` -/
  permissionCallbacks : List (Ptr × PermissionCallback)
  /-- whether `shutdownOnce` has fired -/
  shutdownOnce : Bool
  /-- host side: is the program registered as a login item -/
  loginItem : Bool
  /-- number of `sendState` calls inside `time.Sleep` -/
  sleeping : Nat
  /-- trace of `C.setState` calls (the state that was marshalled), oldest first -/
  setStateCalls : List (Option MenuState)
  /-- trace of `sendState` calls (their argument), oldest first -/
  sendStateCalls : List (Option MenuState)
  /-- trace of `go item.Clicked()` statements, oldest first -/
  goClicked : List Func
  /-- trace of `log.Printf` lines, oldest first -/
  logged : List String
  /-- trace of permission callbacks invoked, with their argument -/
  permissionCalls : List (Func × Bool)
  /-- trace of `NotificationResponder` invocations -/
  responderCalls : List (Func × String × String)
  /-- trace of `C.requestNotificationPermission` calls (the token passed) -/
  permissionRequests : List Ptr
deriving DecidableEq

/-- App returns the application singleton: the value `appOnce` builds on first use
(lines 75-82), every field zero and an empty `visibleMenuItems` map. -/
def App : Application :=
  { NotificationResponder := none
    currentState := none
    nextState := none
    hideStartupItem := false
    pendingStateChange := false
    visibleMenuItems := []
    wg := 0
    ctx := none
    cancel := false }

/-- The process right after start: fresh singleton, empty package variables, no
goroutine running; `login` is the login-item registration found on the host. -/
def World.init (login : Bool) : World :=
  { app := App
    permissionCallbacks := []
    shutdownOnce := false
    loginItem := login
    sleeping := 0
    setStateCalls := []
    sendStateCalls := []
    goClicked := []
    logged := []
    permissionCalls := []
    responderCalls := []
    permissionRequests := [] }

/-! ## Go maps as association lists -/

/-- Go `m[k]` with the comma-ok form: `none` when the key is absent. -/
def mapGet {κ ν : Type} [DecidableEq κ] (k : κ) : List (κ × ν) → Option ν
  | [] => none
  | (k', v) :: rest => if k' = k then some v else mapGet k rest

/-- Go `delete(m, k)`. -/
def mapDelete {κ ν : Type} [DecidableEq κ] (k : κ) : List (κ × ν) → List (κ × ν)
  | [] => []
  | (k', v) :: rest => if k' = k then mapDelete k rest else (k', v) :: mapDelete k rest

/-- Go `m[k] = v`. -/
def mapSet {κ ν : Type} [DecidableEq κ] (k : κ) (v : ν) (m : List (κ × ν)) : List (κ × ν) :=
  (k, v) :: mapDelete k m

/-! ## The debounced state pipeline -/

/-- The call `reflect.DeepEqual(x, y)` on two `*MenuState`: two nil pointers are equal, a nil
and a non-nil pointer are not, two non-nil pointers are equal when the structs
they point to agree field by field. -/
def deepEqual : Option MenuState → Option MenuState → Bool
  | none, none => true
  | some x, some y => x.Title == y.Title && x.Image == y.Image
  | _, _ => false

/-- First critical section of `sendState` (lines 149-156): store the argument in
`nextState`; when a cycle is already pending return, otherwise mark a cycle
pending and go to sleep. -/
def sendStateRequest (state : Option MenuState) (w : World) : World :=
  let w1 := { w with app := { w.app with nextState := state }
                     sendStateCalls := w.sendStateCalls ++ [state] }
  if w1.app.pendingStateChange then
    w1
  else
    { w1 with app := { w1.app with pendingStateChange := true }
              sleeping := w1.sleeping + 1 }

/-- Rest of `sendState` once `time.Sleep` returns (lines 158-173), for one of the
sleeping calls: clear the pending mark; when `nextState` differs from
`currentState` adopt it and hand it to `C.setState`.  `json.Marshal` of a
`*MenuState` (two string fields, or nil) cannot fail, so the error branch of
lines 167-170 is never taken.  With no call asleep there is nothing to wake. -/
def sendStateWake (w : World) : World :=
  if w.sleeping = 0 then
    w
  else
    let w1 := { w with app := { w.app with pendingStateChange := false }
                       sleeping := w.sleeping - 1 }
    if deepEqual w1.app.currentState w1.app.nextState then
      w1
    else
      { w1 with app := { w1.app with currentState := w1.app.nextState }
                setStateCalls := w1.setStateCalls ++ [w1.app.nextState] }

/-- SetMenuState changes what is shown in the dropdown (lines 113-118); the
goroutine `go a.sendState(state)` is taken up to its sleep in the same step. -/
def SetMenuState (state : Option MenuState) (w : World) : World :=
  if deepEqual w.app.currentState state then
    w
  else
    sendStateRequest state w

/-- A burst of `sendState` calls, in order, none of which has woken yet. -/
def sendStateBurst (states : List (Option MenuState)) (w : World) : World :=
  states.foldl (fun acc st => sendStateRequest st acc) w

/-- A burst of `SetMenuState` calls, in order. -/
def SetMenuStateBurst (states : List (Option MenuState)) (w : World) : World :=
  states.foldl (fun acc st => SetMenuState st acc) w

/-- Events of the debounce pipeline: a `sendState` call reaching its first
critical section, or a sleeping call waking up. -/
inductive DebounceEvent where
  | request (state : Option MenuState)
  | wake
deriving DecidableEq

/-- One event applied to the world. -/
def debounceStep (w : World) : DebounceEvent → World
  | .request st => sendStateRequest st w
  | .wake => sendStateWake w

/-- A schedule of events applied in order. -/
def debounceRun (evs : List DebounceEvent) (w : World) : World :=
  evs.foldl debounceStep w

/-- The state passed by the last `sendState` request of a schedule, `start` when the
schedule holds no request. -/
def lastRequest : List DebounceEvent → Option MenuState → Option MenuState
  | [], start => start
  | .request st :: evs, _ => lastRequest evs st
  | .wake :: evs, start => lastRequest evs start

/-! ## Notification permission -/

/-- RequestNotificationPermission requests permission to show notifications
(lines 102-110).  `callbackPtr` is the address `&callback` of the parameter, chosen
by the Go runtime; the callback is stored under it and the address is handed to
the native layer as the token. -/
def RequestNotificationPermission (callback : PermissionCallback) (callbackPtr : Ptr)
    (w : World) : World :=
  { w with permissionCallbacks := mapSet callbackPtr callback w.permissionCallbacks
           permissionRequests := w.permissionRequests ++ [callbackPtr] }

/-- The exported `goNotificationPermissionCallback` (lines 93-99): look the token up; when it is
known call its callback with `granted`, then delete the entry. -/
def goNotificationPermissionCallback (granted : Bool) (data : Ptr) (w : World) :
    Except Panic World :=
  match mapGet data w.permissionCallbacks with
  | some callback =>
    match callback with
    | none => .error Panic.nilFuncCall
    | some f =>
      .ok { w with permissionCalls := w.permissionCalls ++ [(f, granted)]
                   permissionCallbacks := mapDelete data w.permissionCallbacks }
  | none => .ok w

/-! ## Click dispatch and notification responses -/

/-- The method `clicked` (lines 176-186): look the item up, log when it is missing, and start its
handler in a goroutine when the handler is non-nil.  For a missing key the lookup
yields the zero item. -/
def clicked (unique : String) (w : World) : World :=
  let found := mapGet unique w.app.visibleMenuItems
  let item := found.getD internalItem.zero
  let w1 := if found.isSome then w
            else { w with logged := w.logged ++ ["Item not found for click: " ++ unique] }
  match item.Clicked with
  | some f => { w1 with goClicked := w1.goClicked ++ [f] }
  | none => w1

/-- The exported `notificationRespond` (lines 216-218): call the responder field as it is. -/
def notificationRespond (id response : String) (w : World) : Except Panic World :=
  match w.app.NotificationResponder with
  | none => .error Panic.nilFuncCall
  | some f => .ok { w with responderCalls := w.responderCalls ++ [(f, id, response)] }

/-! ## Start at login -/

/-- Modelled from the spec: the method `runningAtStartup` is defined outside `menuet.go`;
section 4.3 makes it a pure query of the login-item registration. -/
def runningAtStartup (w : World) : Bool := w.loginItem

/-- Modelled from the spec: the method `removeStartupItem` is defined outside `menuet.go`;
section 4.3: remove the login item. -/
def removeStartupItem (w : World) : World := { w with loginItem := false }

/-- Modelled from the spec: the method `addStartupItem` is defined outside `menuet.go`;
section 4.3: add the login item. -/
def addStartupItem (w : World) : World := { w with loginItem := true }

/-- The exported `toggleStartup` (lines 231-239); the goroutine `go a.sendState(a.currentState)`
is taken up to its sleep in the same step. -/
def toggleStartup (w : World) : World :=
  let w1 := if runningAtStartup w then removeStartupItem w else addStartupItem w
  sendStateRequest w1.app.currentState w1

/-! ## Graceful shutdown -/

/-- GracefulShutdownHandles (lines 130-135): the first call creates a cancellable
context, later calls change nothing.  The handles returned are `&a.wg` and `a.ctx`
of the resulting world. -/
def GracefulShutdownHandles (w : World) : World :=
  if w.shutdownOnce then
    w
  else
    { w with app := { w.app with ctx := some false, cancel := true }
             shutdownOnce := true }

/-- Calling the `CancelFunc` made by `context.WithCancel`: the context becomes done;
calling it again changes nothing. -/
def callCancel (a : Application) : Application :=
  { a with ctx := a.ctx.map (fun _ => true) }

/-- The call `wg.Add(1)` on the handle. -/
def wgAdd (w : World) : World :=
  { w with app := { w.app with wg := w.app.wg + 1 } }

/-- The call `wg.Done()` on the handle; the counter may not go below zero. -/
def wgDone (w : World) : Except Panic World :=
  if w.app.wg = 0 then .error Panic.negativeWaitGroup
  else .ok { w with app := { w.app with wg := w.app.wg - 1 } }

/-- The call `wg.Wait()` entered with counter `n`, while the outstanding tasks go on to
make `dones` calls of `Done`: each `Done` lowers the counter by one, and `Wait`
returns as soon as the counter is zero.  The result is the counter that is left
and whether `Wait` has returned; `false` means the `Done` calls ran out with the
counter still positive, so the caller stays blocked. -/
def wgWait : Nat → Nat → Nat × Bool
  | 0, _ => (0, true)
  | n + 1, 0 => (n + 1, false)
  | n + 1, d + 1 => wgWait n d

/-- The exported `shutdownWait` (lines 242-247): first call the cancel function when one
exists (lines 243-245), then wait for the task counter to drain (line 246).
`tasks c` is the number of `Done` calls the outstanding tasks go on to make when
the context they watch is `c`; it is read after the cancellation, which is what
the tasks see while the call waits.  The result is the world the call leaves and
whether it has returned; a blocked call leaves the world with the cancellation
already signalled. -/
def shutdownWait (tasks : Option Bool → Nat) (w : World) : World × Bool :=
  let w1 := if w.app.cancel then { w with app := callCancel w.app } else w
  let r := wgWait w1.app.wg (tasks w1.app.ctx)
  ({ w1 with app := { w1.app with wg := r.1 } }, r.2)

/-- What the embedding program does with the shutdown handles before termination. -/
inductive ShutdownOp where
  | handles
  | taskStart
  | taskEnd
deriving DecidableEq

/-- One operation of the embedding program. -/
def shutdownStep (w : World) : ShutdownOp → Except Panic World
  | .handles => .ok (GracefulShutdownHandles w)
  | .taskStart => .ok (wgAdd w)
  | .taskEnd => wgDone w

/-- A sequence of operations of the embedding program, stopping at the first panic. -/
def shutdownRun : List ShutdownOp → World → Except Panic World
  | [], w => .ok w
  | op :: ops, w =>
    match shutdownStep w op with
    | .ok w1 => shutdownRun ops w1
    | .error e => .error e

/-! ## Invariants and sample worlds -/

/-- The sleeper count agrees with the pending mark. -/
def SleepInv (w : World) : Prop :=
  w.sleeping = if w.app.pendingStateChange then 1 else 0

/-- When no cycle is pending the shown state is the last requested one. -/
def IdleInv (w : World) : Prop :=
  w.app.pendingStateChange = false → deepEqual w.app.currentState w.app.nextState = true

/-- The shutdown fields are consistent: the once-guard has fired exactly when a cancel
function exists, and a context exists, not yet done, exactly when a cancel function does. -/
def HandlesInv (w : World) : Prop :=
  w.shutdownOnce = w.app.cancel ∧ (w.app.cancel = false → w.app.ctx = none)
    ∧ (w.app.cancel = true → w.app.ctx = some false)

/-- A menu state titled A. -/
def stateA : MenuState := ⟨"A", ""⟩

/-- A menu state titled B. -/
def stateB : MenuState := ⟨"B", ""⟩

/-- An idle application with `st` on screen. -/
def showing (st : Option MenuState) : World :=
  { World.init false with app := { App with currentState := st, nextState := st } }

/-- An application whose open menu holds one item with handler 3. -/
def menuWithQuit : World :=
  { World.init false with
      app := { App with visibleMenuItems := [("quit", ⟨"quit", "Quit", some 3⟩)] } }

/-- An application with responder 9 configured. -/
def withResponder : World :=
  { World.init false with app := { App with NotificationResponder := some 9 } }

/-- The embedding program took the handles and has one task running. -/
def oneTaskRunning : World :=
  wgAdd (GracefulShutdownHandles (World.init false))

/-- The world `oneTaskRunning` after the task finished and shutdown was signalled. -/
def afterShutdown : World :=
  { oneTaskRunning with app := { callCancel oneTaskRunning.app with wg := 0 } }

/-- The world `oneTaskRunning` with shutdown signalled and the task still running. -/
def shutdownBlocked : World :=
  { oneTaskRunning with app := callCancel oneTaskRunning.app }

/-- Tasks that each call `Done` once they see the context done, and not before. -/
def cooperativeTasks (n : Nat) : Option Bool → Nat :=
  fun c => if c = some true then n else 0

/-- Tasks that never call `Done`. -/
def hungTasks : Option Bool → Nat :=
  fun _ => 0

/-! ## Theorems -/

theorem deepEqual_iff (x y : Option MenuState) : deepEqual x y = true ↔ x = y := by
  cases x with
  | none => cases y <;> simp [deepEqual]
  | some a =>
    cases y with
    | none => simp [deepEqual]
    | some b =>
      cases a; cases b
      simp [deepEqual]

theorem sendStateBurst_nil (w : World) : sendStateBurst [] w = w := rfl

theorem sendStateBurst_cons (st : Option MenuState) (sts : List (Option MenuState)) (w : World) :
    sendStateBurst (st :: sts) w = sendStateBurst sts (sendStateRequest st w) := rfl

theorem sendStateBurst_of_pending (sts : List (Option MenuState)) :
    ∀ w : World, w.app.pendingStateChange = true →
      sendStateBurst sts w =
        { w with app := { w.app with nextState := sts.getLast?.getD w.app.nextState }
                 sendStateCalls := w.sendStateCalls ++ sts } := by
  induction sts with
  | nil => intro w _; simp [sendStateBurst_nil]
  | cons st rest ih =>
    intro w hw
    rw [sendStateBurst_cons, ih _ (by simp [sendStateRequest, hw])]
    cases rest with
    | nil => simp [sendStateRequest, hw]
    | cons r rs =>
      simp [sendStateRequest, hw, List.getLast?_cons_cons,
        List.getLast?_eq_getLast (r :: rs) (List.cons_ne_nil r rs)]


theorem sendStateBurst_of_idle (st : Option MenuState) (sts : List (Option MenuState))
    (w : World) (hw : w.app.pendingStateChange = false) :
    sendStateBurst (st :: sts) w =
      { w with app := { w.app with nextState := (st :: sts).getLast (List.cons_ne_nil st sts)
                                   pendingStateChange := true }
               sleeping := w.sleeping + 1
               sendStateCalls := w.sendStateCalls ++ st :: sts } := by
  rw [sendStateBurst_cons, sendStateBurst_of_pending _ _ (by simp [sendStateRequest, hw])]
  cases sts with
  | nil => simp [sendStateRequest, hw]
  | cons r rs =>
    simp [sendStateRequest, hw, List.getLast?_eq_getLast (r :: rs) (List.cons_ne_nil r rs)]

/-- C1 (amended): from a world with no cycle pending, after a non-empty burst of
`sendState` calls whose last state is not deep-equal to `currentState`, the wake-up
makes exactly one `C.setState` call, for the last state of the burst, and that
state becomes `currentState`. -/
theorem sendState_coalesces (w : World) (states : List (Option MenuState))
    (hne : states ≠ []) (hidle : w.app.pendingStateChange = false)
    (hnew : deepEqual w.app.currentState (states.getLast hne) = false) :
    (sendStateWake (sendStateBurst states w)).setStateCalls
        = w.setStateCalls ++ [states.getLast hne]
      ∧ (sendStateWake (sendStateBurst states w)).app.currentState = states.getLast hne := by
  cases states with
  | nil => exact absurd rfl hne
  | cons st sts =>
    rw [sendStateBurst_of_idle st sts w hidle]
    simp [sendStateWake, hnew]

/-- Instance of `sendState_coalesces`: A on screen, requests B, A, B in one window. -/
theorem sendState_coalesces_witness :
    (sendStateWake (sendStateBurst [some stateB, some stateA, some stateB]
        (showing (some stateA)))).setStateCalls = [some stateB]
      ∧ (sendStateWake (sendStateBurst [some stateB, some stateA, some stateB]
          (showing (some stateA)))).app.currentState = some stateB :=
  sendState_coalesces (showing (some stateA)) [some stateB, some stateA, some stateB]
    (by decide) (by decide) (by decide)

/-- C1 as stated fails: with A on screen and no cycle pending, the single request A
is followed by a wake-up that makes no `C.setState` call at all. -/
theorem sendState_coalescing_counterexample :
    (showing (some stateA)).app.pendingStateChange = false
      ∧ (sendStateWake (sendStateBurst [some stateA] (showing (some stateA)))).setStateCalls
          = (showing (some stateA)).setStateCalls
      ∧ (sendStateWake (sendStateBurst [some stateA] (showing (some stateA)))).setStateCalls
          = [] := by
  decide

/-- C2: from a world with no cycle pending, after a non-empty burst of `sendState`
calls whose last state is deep-equal to `currentState`, the wake-up makes no
`C.setState` call and leaves `currentState` as it was. -/
theorem sendState_suppresses_noop (w : World) (states : List (Option MenuState))
    (hne : states ≠ []) (hidle : w.app.pendingStateChange = false)
    (hsame : deepEqual w.app.currentState (states.getLast hne) = true) :
    (sendStateWake (sendStateBurst states w)).setStateCalls = w.setStateCalls
      ∧ (sendStateWake (sendStateBurst states w)).app.currentState = w.app.currentState := by
  cases states with
  | nil => exact absurd rfl hne
  | cons st sts =>
    rw [sendStateBurst_of_idle st sts w hidle]
    simp [sendStateWake, hsame]

/-- Instance of `sendState_suppresses_noop`: A on screen, requests A, B, A in one
window, zero renders. -/
theorem sendState_suppresses_noop_witness :
    (sendStateWake (sendStateBurst [some stateA, some stateB, some stateA]
        (showing (some stateA)))).setStateCalls = []
      ∧ (sendStateWake (sendStateBurst [some stateA, some stateB, some stateA]
          (showing (some stateA)))).app.currentState = some stateA :=
  sendState_suppresses_noop (showing (some stateA)) [some stateA, some stateB, some stateA]
    (by decide) (by decide) (by decide)

/-- C3 (the code at the failing input): with A on screen, `SetMenuState(B)` followed by
`SetMenuState(A)` in one window ends with B on screen, because the second call is
short-circuited against `currentState` while B is still pending in `nextState`. -/
theorem SetMenuState_drops_last_write :
    (sendStateWake (SetMenuStateBurst [some stateB, some stateA]
        (showing (some stateA)))).app.currentState = some stateB
      ∧ (sendStateWake (SetMenuStateBurst [some stateB, some stateA]
          (showing (some stateA)))).setStateCalls = [some stateB]
      ∧ SetMenuState (some stateA) (SetMenuState (some stateB) (showing (some stateA)))
          = SetMenuState (some stateB) (showing (some stateA)) := by
  decide






theorem deepEqual_self (x : Option MenuState) : deepEqual x x = true :=
  (deepEqual_iff x x).mpr rfl

theorem SleepInv_step (w : World) (ev : DebounceEvent) (h : SleepInv w) :
    SleepInv (debounceStep w ev) := by
  unfold SleepInv at *
  cases ev with
  | request st =>
    cases hp : w.app.pendingStateChange <;> simp [debounceStep, sendStateRequest, hp] at * <;> omega
  | wake =>
    cases hp : w.app.pendingStateChange
    · simp [hp] at h
      simp [debounceStep, sendStateWake, h, hp]
    · simp [hp] at h
      cases hd : deepEqual w.app.currentState w.app.nextState <;>
        simp [debounceStep, sendStateWake, h, hd]

theorem IdleInv_step (w : World) (ev : DebounceEvent) (h : IdleInv w) :
    IdleInv (debounceStep w ev) := by
  unfold IdleInv at *
  cases ev with
  | request st =>
    cases hp : w.app.pendingStateChange <;> simp [debounceStep, sendStateRequest, hp]
  | wake =>
    by_cases hs : w.sleeping = 0
    · simpa [debounceStep, sendStateWake, hs] using h
    · cases hd : deepEqual w.app.currentState w.app.nextState <;>
        simp [debounceStep, sendStateWake, hs, hd, deepEqual_self]

theorem debounceRun_invariant (P : World → Prop)
    (hstep : ∀ w ev, P w → P (debounceStep w ev)) (evs : List DebounceEvent) :
    ∀ w, P w → P (debounceRun evs w) := by
  induction evs with
  | nil => intro w hw; exact hw
  | cons ev rest ih => intro w hw; exact ih _ (hstep w ev hw)

/-- C9: in every world reached from the initial one by `sendState` requests and
wake-ups, the number of sleeping `sendState` calls is 1 when `pendingStateChange`
is set and 0 when it is not; a request arriving while it is set only overwrites
`nextState` (and is recorded in the call trace): the sleeper count, the pending
mark, `currentState` and the `C.setState` trace are as before. -/
theorem one_cycle_in_flight (login : Bool) (evs : List DebounceEvent) :
    (debounceRun evs (World.init login)).sleeping
        = (if (debounceRun evs (World.init login)).app.pendingStateChange then 1 else 0)
      ∧ ∀ st : Option MenuState,
          (debounceRun evs (World.init login)).app.pendingStateChange = true →
          sendStateRequest st (debounceRun evs (World.init login))
            = { debounceRun evs (World.init login) with
                  app := { (debounceRun evs (World.init login)).app with nextState := st }
                  sendStateCalls :=
                    (debounceRun evs (World.init login)).sendStateCalls ++ [st] } := by
  refine ⟨debounceRun_invariant SleepInv SleepInv_step evs _ (by simp [SleepInv, World.init, App]), ?_⟩
  intro st hp
  simp [sendStateRequest, hp]

/-- Instance of `one_cycle_in_flight`: after the requests A and B a third request A
finds the cycle pending. -/
theorem one_cycle_in_flight_witness :
    (debounceRun [.request (some stateA), .request (some stateB)] (World.init false)).sleeping = 1
      ∧ (sendStateRequest (some stateA)
          (debounceRun [.request (some stateA), .request (some stateB)] (World.init false))).sleeping
            = 1
      ∧ (sendStateRequest (some stateA)
          (debounceRun [.request (some stateA), .request (some stateB)]
            (World.init false))).setStateCalls = [] :=
  ⟨(one_cycle_in_flight false [.request (some stateA), .request (some stateB)]).1,
    congrArg World.sleeping
      ((one_cycle_in_flight false [.request (some stateA), .request (some stateB)]).2
        (some stateA) (by decide)),
    congrArg World.setStateCalls
      ((one_cycle_in_flight false [.request (some stateA), .request (some stateB)]).2
        (some stateA) (by decide))⟩

theorem debounceRun_cons (ev : DebounceEvent) (evs : List DebounceEvent) (w : World) :
    debounceRun (ev :: evs) w = debounceRun evs (debounceStep w ev) := rfl

theorem sendStateWake_nextState (w : World) :
    (sendStateWake w).app.nextState = w.app.nextState := by
  unfold sendStateWake
  by_cases hs : w.sleeping = 0
  · simp [hs]
  · cases hd : deepEqual w.app.currentState w.app.nextState <;> simp [hs, hd]

theorem sendStateRequest_nextState (st : Option MenuState) (w : World) :
    (sendStateRequest st w).app.nextState = st := by
  unfold sendStateRequest
  cases hp : w.app.pendingStateChange <;> simp [hp]

theorem debounceRun_nextState (evs : List DebounceEvent) :
    ∀ w : World, (debounceRun evs w).app.nextState = lastRequest evs w.app.nextState := by
  induction evs with
  | nil => intro w; rfl
  | cons ev rest ih =>
    intro w
    rw [debounceRun_cons, ih]
    cases ev with
    | request st => simp [debounceStep, lastRequest, sendStateRequest_nextState]
    | wake => simp [debounceStep, lastRequest, sendStateWake_nextState]

/-- C10: in every world reached from the initial one by `sendState` requests and
wake-ups, `nextState` is the state passed by the last request of the schedule
(nil when there was none), and when `pendingStateChange` is false `currentState`
is deep-equal to `nextState`, so that the state on screen is the state of the last
request. -/
theorem idle_consistency (login : Bool) (evs : List DebounceEvent) :
    (debounceRun evs (World.init login)).app.nextState = lastRequest evs none
      ∧ ((debounceRun evs (World.init login)).app.pendingStateChange = false →
          deepEqual (debounceRun evs (World.init login)).app.currentState
              (debounceRun evs (World.init login)).app.nextState = true
            ∧ (debounceRun evs (World.init login)).app.currentState = lastRequest evs none) := by
  have hnext := debounceRun_nextState evs (World.init login)
  refine ⟨hnext, ?_⟩
  intro hidle
  have heq := debounceRun_invariant IdleInv IdleInv_step evs (World.init login)
    (by simp [IdleInv, World.init, App, deepEqual]) hidle
  refine ⟨heq, ?_⟩
  rw [(deepEqual_iff _ _).mp heq]
  exact hnext

/-- Instance of `idle_consistency`: request A, wake, request B, request A, request B,
wake; the world is idle with B, the last request, on screen. -/
theorem idle_consistency_witness :
    (debounceRun [.request (some stateA), .wake, .request (some stateB),
        .request (some stateA), .request (some stateB), .wake]
        (World.init false)).app.pendingStateChange = false
      ∧ (debounceRun [.request (some stateA), .wake, .request (some stateB),
          .request (some stateA), .request (some stateB), .wake]
          (World.init false)).app.currentState = some stateB :=
  ⟨by decide,
    ((idle_consistency false [.request (some stateA), .wake, .request (some stateB),
      .request (some stateA), .request (some stateB), .wake]).2 (by decide)).2⟩

theorem mapGet_mapDelete_self {κ ν : Type} [DecidableEq κ] (k : κ) (m : List (κ × ν)) :
    mapGet k (mapDelete k m) = none := by
  induction m with
  | nil => rfl
  | cons kv rest ih =>
    obtain ⟨k', v⟩ := kv
    by_cases hk : k' = k <;> simp [mapDelete, mapGet, hk, ih]

theorem mapGet_mapSet_self {κ ν : Type} [DecidableEq κ] (k : κ) (v : ν) (m : List (κ × ν)) :
    mapGet k (mapSet k v m) = some v := by
  simp [mapSet, mapGet]

/-- C4 (amended): for every world and every token registered with a non-nil callback,
the first answer invokes that callback exactly once with the value granted and
removes the token, after which every later answer for the token changes nothing;
an answer for a token that is not registered changes nothing; and
`RequestNotificationPermission` registers its callback under the token it hands
to the native layer. -/
theorem permission_single_fire (w : World) (token : Ptr) (f : Func)
    (hreg : mapGet token w.permissionCallbacks = some (some f)) (granted : Bool) :
    (∃ w1, goNotificationPermissionCallback granted token w = .ok w1
        ∧ w1.permissionCalls = w.permissionCalls ++ [(f, granted)]
        ∧ mapGet token w1.permissionCallbacks = none
        ∧ ∀ later : Bool, goNotificationPermissionCallback later token w1 = .ok w1)
      ∧ (∀ (unknown : Ptr) (g : Bool), mapGet unknown w.permissionCallbacks = none →
          goNotificationPermissionCallback g unknown w = .ok w)
      ∧ (∀ (w0 : World) (ptr : Ptr),
          mapGet ptr (RequestNotificationPermission (some f) ptr w0).permissionCallbacks
            = some (some f)) := by
  refine ⟨⟨_, by simp [goNotificationPermissionCallback, hreg]; rfl, rfl, ?_, ?_⟩, ?_, ?_⟩
  · exact mapGet_mapDelete_self _ _
  · intro later
    simp [goNotificationPermissionCallback, mapGet_mapDelete_self]
  · intro unknown g hun
    simp [goNotificationPermissionCallback, hun]
  · intro w0 ptr
    simp [RequestNotificationPermission, mapGet_mapSet_self]

/-- Instance of `permission_single_fire`: callback 5 registered under token 7. -/
theorem permission_single_fire_witness :
    mapGet 7 (RequestNotificationPermission (some 5) 7 (World.init false)).permissionCallbacks
        = some (some 5)
      ∧ ∃ w1, goNotificationPermissionCallback true 7
            (RequestNotificationPermission (some 5) 7 (World.init false)) = .ok w1
          ∧ w1.permissionCalls
              = (RequestNotificationPermission (some 5) 7 (World.init false)).permissionCalls
                  ++ [(5, true)]
          ∧ mapGet 7 w1.permissionCallbacks = none
          ∧ ∀ later : Bool, goNotificationPermissionCallback later 7 w1 = .ok w1 :=
  ⟨by decide,
    (permission_single_fire (RequestNotificationPermission (some 5) 7 (World.init false)) 7 5
      (by decide) true).1⟩

/-- C4 as stated fails: a token registered by `RequestNotificationPermission(nil)` is
in the table, and the answer for it calls the nil function value, which panics
before the token is removed. -/
theorem permission_nil_callback_counterexample :
    mapGet 7 (RequestNotificationPermission none 7 (World.init false)).permissionCallbacks
        = some none
      ∧ goNotificationPermissionCallback true 7
          (RequestNotificationPermission none 7 (World.init false))
        = .error Panic.nilFuncCall :=
  ⟨by decide, rfl⟩


/-- C5: `clicked` starts the handler stored under the identifier exactly once when
the identifier is present with a non-nil handler; for an identifier that is not
in the registry it starts no handler and changes nothing but the log, to which
it adds one line; in every case the application, and with it the registry, is
left unchanged. -/
theorem clicked_dispatch (w : World) (unique : String) :
    (∀ (item : internalItem) (f : Func),
        mapGet unique w.app.visibleMenuItems = some item → item.Clicked = some f →
        clicked unique w = { w with goClicked := w.goClicked ++ [f] })
      ∧ (mapGet unique w.app.visibleMenuItems = none →
          clicked unique w
            = { w with logged := w.logged ++ ["Item not found for click: " ++ unique] })
      ∧ (clicked unique w).app = w.app := by
  refine ⟨?_, ?_, ?_⟩
  · intro item f hget hf
    simp [clicked, hget, hf]
  · intro hget
    simp [clicked, hget, internalItem.zero]
  · unfold clicked
    cases hget : mapGet unique w.app.visibleMenuItems with
    | none => simp [internalItem.zero]
    | some item => cases hc : item.Clicked <;> simp [hc]

/-- Instance of `clicked_dispatch`: a click on the registered item and a stale click. -/
theorem clicked_dispatch_witness :
    clicked "quit" menuWithQuit = { menuWithQuit with goClicked := menuWithQuit.goClicked ++ [3] }
      ∧ clicked "gone" menuWithQuit
          = { menuWithQuit with
                logged := menuWithQuit.logged ++ ["Item not found for click: " ++ "gone"] } :=
  ⟨(clicked_dispatch menuWithQuit "quit").1 ⟨"quit", "Quit", some 3⟩ 3 (by decide) rfl,
    (clicked_dispatch menuWithQuit "gone").2.1 (by decide)⟩

/-- With a responder configured `notificationRespond` calls it exactly once with the
id and the response. -/
theorem notificationRespond_forwards (w : World) (id response : String) (f : Func)
    (h : w.app.NotificationResponder = some f) :
    notificationRespond id response w
      = .ok { w with responderCalls := w.responderCalls ++ [(f, id, response)] } := by
  simp [notificationRespond, h]

/-- C6 (the code at the failing input): with no responder configured, as in a fresh
application, `notificationRespond` calls the nil function value and panics; it
neither returns normally nor logs. -/
theorem notificationRespond_nil_responder_panics :
    (World.init false).app.NotificationResponder = none
      ∧ notificationRespond "n1" "ok" (World.init false) = .error Panic.nilFuncCall :=
  ⟨rfl, rfl⟩


/-- C7: `toggleStartup` leaves `runningAtStartup` equal to the negation of its
value before the call and makes exactly one `sendState` call, with `currentState`
as argument. -/
theorem toggleStartup_symmetry (w : World) :
    runningAtStartup (toggleStartup w) = !runningAtStartup w
      ∧ (toggleStartup w).sendStateCalls = w.sendStateCalls ++ [w.app.currentState] := by
  cases hl : w.loginItem <;>
    cases hp : w.app.pendingStateChange <;>
      simp [toggleStartup, runningAtStartup, removeStartupItem, addStartupItem,
        sendStateRequest, hl, hp]


theorem wgWait_eq (n d : Nat) : wgWait n d = (n - d, decide (n ≤ d)) := by
  induction n generalizing d with
  | zero => cases d <;> simp [wgWait]
  | succ k ih =>
    cases d with
    | zero => simp [wgWait]
    | succ e => simp [wgWait, ih]

theorem shutdownRun_handles (ops : List ShutdownOp) :
    ∀ w0 w : World, HandlesInv w0 → shutdownRun ops w0 = .ok w →
      HandlesInv w ∧ (w.app.cancel = true ↔ (w0.app.cancel = true ∨ ShutdownOp.handles ∈ ops)) := by
  induction ops with
  | nil =>
    intro w0 w hinv hrun
    simp only [shutdownRun, Except.ok.injEq] at hrun
    subst hrun
    exact ⟨hinv, by simp⟩
  | cons op rest ih =>
    intro w0 w hinv hrun
    obtain ⟨h1, h2, h3⟩ := hinv
    cases op with
    | handles =>
      simp only [shutdownRun, shutdownStep] at hrun
      have hinv1 : HandlesInv (GracefulShutdownHandles w0) := by
        unfold HandlesInv GracefulShutdownHandles
        cases hc : w0.app.cancel <;> simp_all
      obtain ⟨hi, hc⟩ := ih _ w hinv1 hrun
      refine ⟨hi, ?_⟩
      rw [hc]
      have : (GracefulShutdownHandles w0).app.cancel = true := by
        unfold GracefulShutdownHandles
        cases hc0 : w0.app.cancel <;> simp_all
      simp [this]
    | taskStart =>
      simp only [shutdownRun, shutdownStep] at hrun
      obtain ⟨hi, hc⟩ := ih (wgAdd w0) w ⟨h1, h2, h3⟩ hrun
      refine ⟨hi, ?_⟩
      rw [hc]
      simp [wgAdd]
    | taskEnd =>
      by_cases hz : w0.app.wg = 0
      · simp [shutdownRun, shutdownStep, wgDone, hz] at hrun
      · simp only [shutdownRun, shutdownStep, wgDone, hz, if_false] at hrun
        obtain ⟨hi, hc⟩ := ih _ w
          (show HandlesInv { w0 with app := { w0.app with wg := w0.app.wg - 1 } } from
            ⟨h1, h2, h3⟩) hrun
        refine ⟨hi, ?_⟩
        rw [hc]
        simp

theorem shutdownWait_eq (tasks : Option Bool → Nat) (w : World) :
    shutdownWait tasks w =
      ({ w with
          app := { w.app with
            ctx := if w.app.cancel then w.app.ctx.map (fun _ => true) else w.app.ctx
            wg := w.app.wg
              - tasks (if w.app.cancel then w.app.ctx.map (fun _ => true) else w.app.ctx) } },
        decide (w.app.wg
          ≤ tasks (if w.app.cancel then w.app.ctx.map (fun _ => true) else w.app.ctx))) := by
  unfold shutdownWait
  cases hc : w.app.cancel <;> simp [wgWait_eq, callCancel]

theorem shutdownRun_init (login : Bool) (ops : List ShutdownOp) (w : World)
    (hrun : shutdownRun ops (World.init login) = .ok w) :
    (ShutdownOp.handles ∈ ops → w.app.cancel = true ∧ w.app.ctx = some false)
      ∧ (ShutdownOp.handles ∉ ops → w.app.cancel = false ∧ w.app.ctx = none) := by
  have hinit : HandlesInv (World.init login) := by simp [HandlesInv, World.init, App]
  obtain ⟨⟨-, h2, h3⟩, hc⟩ := shutdownRun_handles ops _ w hinit hrun
  have hc0 : (World.init login).app.cancel = false := rfl
  simp only [hc0, Bool.false_eq_true, false_or] at hc
  refine ⟨fun hm => ⟨hc.mpr hm, h3 (hc.mpr hm)⟩, fun hm => ?_⟩
  have hf : w.app.cancel = false := by
    cases hcc : w.app.cancel
    · rfl
    · exact absurd (hc.mp hcc) hm
  exact ⟨hf, h2 hf⟩

/-- C8: `shutdownWait` first signals cancellation when a cancel function exists and
then waits: whether it returns or stays blocked, it leaves the context done when
a cancel function exists, the counter lowered by the `Done` calls of the tasks,
and everything else as it was.  It returns exactly when those `Done` calls bring
the counter to zero, so it returns only with the counter at zero and stays
blocked, counter positive, otherwise.  After a call that returned, a second call
returns at once and leaves the very same world.  In a world reached from the
initial one by the embedding program the context is done after the call exactly
when `GracefulShutdownHandles` was called before and is nil otherwise; when the
handles were never created and the counter is zero the call returns at once and
changes nothing. -/
theorem shutdownWait_safe_idempotent (w : World) (tasks : Option Bool → Nat) :
    (shutdownWait tasks w).1
        = { w with
            app := { w.app with
              ctx := if w.app.cancel then w.app.ctx.map (fun _ => true) else w.app.ctx
              wg := w.app.wg
                - tasks (if w.app.cancel then w.app.ctx.map (fun _ => true) else w.app.ctx) } }
      ∧ ((shutdownWait tasks w).2 = true ↔
          w.app.wg ≤ tasks (if w.app.cancel then w.app.ctx.map (fun _ => true) else w.app.ctx))
      ∧ ((shutdownWait tasks w).2 = true →
          (shutdownWait tasks w).1.app.wg = 0
            ∧ ∀ later : Option Bool → Nat,
                shutdownWait later (shutdownWait tasks w).1 = ((shutdownWait tasks w).1, true))
      ∧ ((shutdownWait tasks w).2 = false → 0 < (shutdownWait tasks w).1.app.wg)
      ∧ (∀ (login : Bool) (ops : List ShutdownOp),
          shutdownRun ops (World.init login) = .ok w →
          (shutdownWait tasks w).1.app.ctx
            = if ShutdownOp.handles ∈ ops then some true else none)
      ∧ (∀ (login : Bool) (ops : List ShutdownOp),
          shutdownRun ops (World.init login) = .ok w → ShutdownOp.handles ∉ ops →
          w.app.wg = 0 → shutdownWait tasks w = (w, true)) := by
  refine ⟨by rw [shutdownWait_eq], by rw [shutdownWait_eq]; simp, ?_, ?_, ?_, ?_⟩
  · intro hret
    rw [shutdownWait_eq] at hret ⊢
    simp only [decide_eq_true_eq] at hret
    refine ⟨by simp; omega, ?_⟩
    intro later
    rw [shutdownWait_eq]
    cases hc : w.app.cancel <;> cases hx : w.app.ctx <;>
      simp [hc, hx] at hret ⊢ <;> omega
  · intro hblk
    rw [shutdownWait_eq] at hblk ⊢
    simp only [decide_eq_false_iff_not, not_le] at hblk
    simp only
    omega
  · intro login ops hrun
    obtain ⟨hyes, hno⟩ := shutdownRun_init login ops w hrun
    rw [shutdownWait_eq]
    by_cases hm : ShutdownOp.handles ∈ ops
    · obtain ⟨hc, hx⟩ := hyes hm
      simp [hm, hc, hx]
    · obtain ⟨hc, hx⟩ := hno hm
      simp [hm, hc, hx]
  · intro login ops hrun hm hz
    obtain ⟨hc, hx⟩ := (shutdownRun_init login ops w hrun).2 hm
    have e : shutdownWait tasks w = ({ w with app := { w.app with wg := 0 } }, true) := by
      rw [shutdownWait_eq]
      simp [hc, hz]
    rw [e, ← hz]

/-- Instance of `shutdownWait_safe_idempotent`: handles taken and one task running.
With a task that finishes once it sees the context done the call returns, and a
second call changes nothing; with a task that never finishes the call stays
blocked, the cancellation already signalled. -/
theorem shutdownWait_safe_idempotent_witness :
    shutdownRun [.handles, .taskStart] (World.init false) = .ok oneTaskRunning
      ∧ shutdownWait (cooperativeTasks 1) oneTaskRunning = (afterShutdown, true)
      ∧ (shutdownWait (cooperativeTasks 1) oneTaskRunning).1.app.wg = 0
      ∧ shutdownWait hungTasks (shutdownWait (cooperativeTasks 1) oneTaskRunning).1
          = ((shutdownWait (cooperativeTasks 1) oneTaskRunning).1, true)
      ∧ shutdownWait hungTasks oneTaskRunning = (shutdownBlocked, false)
      ∧ 0 < (shutdownWait hungTasks oneTaskRunning).1.app.wg
      ∧ (shutdownWait hungTasks oneTaskRunning).1.app.ctx
          = (if ShutdownOp.handles ∈ [ShutdownOp.handles, ShutdownOp.taskStart] then some true
              else none)
      ∧ shutdownWait hungTasks (World.init false) = (World.init false, true) :=
  ⟨rfl, by decide,
    ((shutdownWait_safe_idempotent oneTaskRunning (cooperativeTasks 1)).2.2.1 (by decide)).1,
    ((shutdownWait_safe_idempotent oneTaskRunning (cooperativeTasks 1)).2.2.1 (by decide)).2
      hungTasks,
    by decide,
    (shutdownWait_safe_idempotent oneTaskRunning hungTasks).2.2.2.1 (by decide),
    (shutdownWait_safe_idempotent oneTaskRunning hungTasks).2.2.2.2.1 false
      [.handles, .taskStart] rfl,
    (shutdownWait_safe_idempotent (World.init false) hungTasks).2.2.2.2.2 false [] rfl
      (by decide) rfl⟩

end Menuet
